import Mathlib

/-!
Verification of the clipboard watcher / staging / alias-rotation core of
the `claude-utils` repository, shallowly embedded in Lean 4.

Modelling conventions: Rust `String` values are `List Char` (`RStr`), so
`str::len` (UTF-8 byte length) and `chars().take(n)` are both expressible;
byte buffers (`Vec<u8>`, `&[u8]`) are `List Nat` with entries below 256;
`SystemTime` / timestamps are `Nat`; directories are explicit lists of
entries.  SHA-256 is implemented in full, since both the staging store and
the watcher fingerprint derive names and change detection from it.
-/

abbrev RStr := List Char

/-- UTF-8 encoding of one Unicode scalar value, as in Rust `str::as_bytes`. -/
def utf8Bytes (c : Char) : List Nat :=
  let n := c.toNat
  if n < 128 then [n]
  else if n < 2048 then [192 ||| (n >>> 6), 128 ||| (n &&& 63)]
  else if n < 65536 then
    [224 ||| (n >>> 12), 128 ||| ((n >>> 6) &&& 63), 128 ||| (n &&& 63)]
  else
    [240 ||| (n >>> 18), 128 ||| ((n >>> 12) &&& 63),
     128 ||| ((n >>> 6) &&& 63), 128 ||| (n &&& 63)]

/-- The UTF-8 byte sequence of a Rust string. -/
def strBytes (s : RStr) : List Nat := (s.map utf8Bytes).flatten

/-- Rust `String::len` / `str::len`: the UTF-8 byte length. -/
def rustLen (s : RStr) : Nat := (strBytes s).length

/-! ### SHA-256 (the `sha2` crate's `Sha256`, used by both components) -/

def p32 : Nat := 4294967296

def rotr32 (n x : Nat) : Nat := ((x >>> n) ||| (x <<< (32 - n))) % p32

def bsig0 (x : Nat) : Nat := (rotr32 2 x) ^^^ (rotr32 13 x) ^^^ (rotr32 22 x)

def bsig1 (x : Nat) : Nat := (rotr32 6 x) ^^^ (rotr32 11 x) ^^^ (rotr32 25 x)

def ssig0 (x : Nat) : Nat := (rotr32 7 x) ^^^ (rotr32 18 x) ^^^ (x >>> 3)

def ssig1 (x : Nat) : Nat := (rotr32 17 x) ^^^ (rotr32 19 x) ^^^ (x >>> 10)

def ch32 (x y z : Nat) : Nat := (x &&& y) ^^^ ((x ^^^ 4294967295) &&& z)

def maj32 (x y z : Nat) : Nat := (x &&& y) ^^^ (x &&& z) ^^^ (y &&& z)

def K64 : List Nat :=
  [1116352408, 1899447441, 3049323471, 3921009573, 961987163,
   1508970993, 2453635748, 2870763221, 3624381080, 310598401,
   607225278, 1426881987, 1925078388, 2162078206, 2614888103,
   3248222580, 3835390401, 4022224774, 264347078, 604807628,
   770255983, 1249150122, 1555081692, 1996064986, 2554220882,
   2821834349, 2952996808, 3210313671, 3336571891, 3584528711,
   113926993, 338241895, 666307205, 773529912, 1294757372,
   1396182291, 1695183700, 1986661051, 2177026350, 2456956037,
   2730485921, 2820302411, 3259730800, 3345764771, 3516065817,
   3600352804, 4094571909, 275423344, 430227734, 506948616,
   659060556, 883997877, 958139571, 1322822218, 1537002063,
   1747873779, 1955562222, 2024104815, 2227730452, 2361852424,
   2428436474, 2756734187, 3204031479, 3329325298]

structure Sha8 where
  a : Nat
  b : Nat
  c : Nat
  d : Nat
  e : Nat
  f : Nat
  g : Nat
  h : Nat
deriving DecidableEq

def shaRound (st : Sha8) (kw : Nat × Nat) : Sha8 :=
  let t1 := (st.h + bsig1 st.e + ch32 st.e st.f st.g + kw.1 + kw.2) % p32
  let t2 := (bsig0 st.a + maj32 st.a st.b st.c) % p32
  ⟨(t1 + t2) % p32, st.a, st.b, st.c, (st.d + t1) % p32, st.e, st.f, st.g⟩

/-- Big-endian 32-bit words from a byte stream. -/
def beWords : List Nat → List Nat
  | a :: b :: c :: d :: rest =>
    ((((((a <<< 8) ||| b) <<< 8) ||| c) <<< 8) ||| d) :: beWords rest
  | _ => []

def schedGo : Nat → List Nat → List Nat
  | 0, acc => acc
  | n + 1, acc =>
    let w := (ssig1 (acc.getD 1 0) + acc.getD 6 0 +
              ssig0 (acc.getD 14 0) + acc.getD 15 0) % p32
    schedGo n (w :: acc)

/-- The 64-entry message schedule of one 64-byte block. -/
def schedule (block : List Nat) : List Nat :=
  (schedGo 48 (beWords block).reverse).reverse

def compress (hs : Sha8) (block : List Nat) : Sha8 :=
  let st := (K64.zip (schedule block)).foldl shaRound hs
  ⟨(hs.a + st.a) % p32, (hs.b + st.b) % p32, (hs.c + st.c) % p32,
   (hs.d + st.d) % p32, (hs.e + st.e) % p32, (hs.f + st.f) % p32,
   (hs.g + st.g) % p32, (hs.h + st.h) % p32⟩

def be8 (n : Nat) : List Nat :=
  [(n >>> 56) &&& 255, (n >>> 48) &&& 255, (n >>> 40) &&& 255,
   (n >>> 32) &&& 255, (n >>> 24) &&& 255, (n >>> 16) &&& 255,
   (n >>> 8) &&& 255, n &&& 255]

def be4 (n : Nat) : List Nat :=
  [(n >>> 24) &&& 255, (n >>> 16) &&& 255, (n >>> 8) &&& 255, n &&& 255]

/-- SHA-256 padding: `0x80`, zeros, then the bit length as 8 big-endian bytes. -/
def shaPad (msg : List Nat) : List Nat :=
  let k := (119 - (msg.length % 64)) % 64
  msg ++ 128 :: List.replicate k 0 ++ be8 (8 * msg.length)

def chunksGo : Nat → List Nat → List (List Nat)
  | 0, _ => []
  | _, [] => []
  | n + 1, l => l.take 64 :: chunksGo n (l.drop 64)

def initSha : Sha8 :=
  ⟨1779033703, 3144134277, 1013904242, 2773480762,
   1359893119, 2600822924, 528734635, 1541459225⟩

/-- The 32-byte SHA-256 digest of a byte stream. -/
def sha256 (msg : List Nat) : List Nat :=
  let padded := shaPad msg
  let fin := (chunksGo padded.length padded).foldl compress initSha
  be4 fin.a ++ be4 fin.b ++ be4 fin.c ++ be4 fin.d ++
  be4 fin.e ++ be4 fin.f ++ be4 fin.g ++ be4 fin.h

def hexAlphabet : List Char := "0123456789abcdef".toList

def hexDigit (n : Nat) : Char := hexAlphabet.getD n 'x'

/-- Lowercase hex rendering of a digest, Rust `format!("{:x}", ...)`. -/
def sha256hex (msg : List Nat) : RStr :=
  (sha256 msg).foldr (fun b acc => hexDigit (b >>> 4) :: hexDigit (b &&& 15) :: acc) []

/-! ### Data model (`src/clipboard/mod.rs`) -/

/-- `ClipboardContent`: the tagged clipboard payload.  Image `data` is a
base64 string when small enough to inline, `file` a staged path. -/
inductive ClipboardContent where
  | Text (data : RStr) (truncated : Option Bool)
  | ImagePng (data : Option RStr) (file : Option RStr)
      (width : Nat) (height : Nat) (size : Nat)
  | ImageJpeg (data : Option RStr) (file : Option RStr)
      (width : Nat) (height : Nat) (size : Nat)
deriving DecidableEq

structure ClipboardMetadata where
  timestamp : Nat
  source : Option RStr
deriving DecidableEq

structure ClipboardData where
  content : ClipboardContent
  metadata : ClipboardMetadata
deriving DecidableEq

/-- `arboard::ImageData`: raw RGBA pixels plus dimensions. -/
structure ImageData where
  width : Nat
  height : Nat
  bytes : List Nat
deriving DecidableEq

/-- The OS clipboard as seen through `arboard`: `get_image` succeeds when an
image is present, `get_text` when text is present. -/
structure OsClipboard where
  image : Option ImageData
  text : Option RStr
deriving DecidableEq

inductive ClaudeUtilsError where
  | Clipboard (msg : RStr)
  | ImageProcessing
deriving DecidableEq

/-- `crate::MAX_INLINE_SIZE` from `src/lib.rs`. -/
def MAX_INLINE_SIZE : Nat := 65536

/-! ### The accessor (`ClipboardManager`, `src/clipboard/mod.rs`) -/

def b64Alphabet : List Char :=
  "ABCDEFGHIJKLMNOPQRSTUVWXYZabcdefghijklmnopqrstuvwxyz0123456789+/".toList

def b64Digit (n : Nat) : Char := b64Alphabet.getD n 'x'

/-- Standard base64 with padding (the `base64` crate's `STANDARD` engine). -/
def base64Encode : List Nat → RStr
  | [] => []
  | [a] => [b64Digit (a >>> 2), b64Digit ((a &&& 3) <<< 4), '=', '=']
  | [a, b] => [b64Digit (a >>> 2), b64Digit (((a &&& 3) <<< 4) ||| (b >>> 4)),
               b64Digit ((b &&& 15) <<< 2), '=']
  | a :: b :: c :: rest =>
    b64Digit (a >>> 2) :: b64Digit (((a &&& 3) <<< 4) ||| (b >>> 4)) ::
    b64Digit (((b &&& 15) <<< 2) ||| (c >>> 6)) :: b64Digit (c &&& 63) ::
    base64Encode rest

/-- `ClipboardManager::process_text`: flags text whose byte length exceeds
`MAX_INLINE_SIZE` as truncated and keeps only its first `MAX_INLINE_SIZE`
characters (`chars().take(...)`). -/
def process_text (text : RStr) (now : Nat) : ClipboardData :=
  let truncated := rustLen text > MAX_INLINE_SIZE
  let data := if truncated then text.take MAX_INLINE_SIZE else text
  { content := .Text data (if truncated then some true else none),
    metadata := { timestamp := now, source := none } }

/-- `ClipboardManager::process_image`: rebuilds the RGBA buffer (failing when
it is too small for the stated dimensions, as `RgbaImage::from_raw` does),
re-encodes it as PNG (the encoder itself is the external `image` crate,
passed as a parameter) and inlines the base64 payload only when it fits. -/
def process_image (img : ImageData) (encode : ImageData → List Nat) (now : Nat) :
    Except ClaudeUtilsError ClipboardData :=
  if img.bytes.length < 4 * img.width * img.height then .error .ImageProcessing
  else
    let png := encode img
    let size := png.length
    let data := if size ≤ MAX_INLINE_SIZE then some (base64Encode png) else none
    .ok { content := .ImagePng data none img.width img.height size,
          metadata := { timestamp := now, source := none } }

def noContentMsg : RStr := "No content in clipboard".toList

/-- `ClipboardManager::get_content`: image first (more specific), then text,
otherwise a clipboard error. -/
def get_content (cb : OsClipboard) (encode : ImageData → List Nat) (now : Nat) :
    Except ClaudeUtilsError ClipboardData :=
  match cb.image with
  | some img => process_image img encode now
  | none =>
    match cb.text with
    | some t => .ok (process_text t now)
    | none => .error (.Clipboard noContentMsg)

/-- `ClipboardManager::get_raw_image`: reads the raw image and re-encodes it
as PNG, failing when no image is present or the buffer is undersized. -/
def get_raw_image (cb : OsClipboard) (encode : ImageData → List Nat) :
    Except ClaudeUtilsError (List Nat) :=
  match cb.image with
  | none => .error (.Clipboard noContentMsg)
  | some img =>
    if img.bytes.length < 4 * img.width * img.height then .error .ImageProcessing
    else .ok (encode img)

/-- `ClipboardManager::set_content` with a `Text` payload: `set_text`
replaces the OS clipboard wholesale. -/
def set_text_content (_cb : OsClipboard) (data : RStr) : OsClipboard :=
  { image := none, text := some data }

/-! ### The watcher (`ClipboardWatcher`, `src/clipboard/watcher.rs`) -/

def textTag : List Nat := strBytes ("text:".toList)

def imageTag : List Nat := strBytes ("image:".toList)

/-- `usize::to_le_bytes`: 8 little-endian bytes. -/
def le8 (n : Nat) : List Nat :=
  [n &&& 255, (n >>> 8) &&& 255, (n >>> 16) &&& 255, (n >>> 24) &&& 255,
   (n >>> 32) &&& 255, (n >>> 40) &&& 255, (n >>> 48) &&& 255, (n >>> 56) &&& 255]

/-- The exact byte stream `ClipboardWatcher::calculate_content_hash` feeds to
its SHA-256 hasher.  PNG and JPEG share one match arm in the source, so the
codec does not enter the stream. -/
def hashInputBytes : ClipboardContent → List Nat
  | .Text data _ => textTag ++ strBytes data
  | .ImagePng data file width height size
  | .ImageJpeg data file width height size =>
    imageTag ++ le8 width ++ le8 height ++ le8 size ++
    (match data with
     | some d => strBytes d
     | none => match file with
       | some f => strBytes f
       | none => [])

/-- `ClipboardWatcher::calculate_content_hash`. -/
def calculate_content_hash (c : ClipboardContent) : RStr :=
  sha256hex (hashInputBytes c)

/-- One `ClipboardWatcher::check_clipboard` poll over the stored fingerprint:
`none` input models a failed `get_content` (logged, poll returns `Ok`);
otherwise the new fingerprint is compared with the recorded one and an event
is emitted exactly on change. -/
def check_clipboard (last : Option RStr) (inp : Option ClipboardContent) :
    Option RStr × List ClipboardContent :=
  match inp with
  | none => (last, [])
  | some c =>
    let h := calculate_content_hash c
    match last with
    | some prev => if prev = h then (last, []) else (some h, [c])
    | none => (some h, [c])

/-- The watcher loop over a finite list of poll results, collecting the
emitted events in order. -/
def runWatcher : Option RStr → List (Option ClipboardContent) → List ClipboardContent
  | _, [] => []
  | last, inp :: rest =>
    let step := check_clipboard last inp
    step.2 ++ runWatcher step.1 rest

/-! ### The staging store (`FileManager`, `src/file_manager/mod.rs`) -/

structure StagedFile where
  path : RStr
  size : Nat
  format : RStr
  created_at : Nat
  thumbnail_path : Option RStr
deriving DecidableEq

structure FMConfig where
  staging_dir : RStr
  cleanup_interval : Nat
  max_file_age : Nat
deriving DecidableEq

/-- File-manager state: the in-memory hash index (`cache`) and the staging
directory as (path, mtime) entries; the filesystem is the source of truth. -/
structure FMState where
  cache : List (RStr × StagedFile)
  disk : List (RStr × Nat)
deriving DecidableEq

/-- `HashMap::get` over the assoc-list index. -/
def cacheLookup : List (RStr × StagedFile) → RStr → Option StagedFile
  | [], _ => none
  | (k, v) :: rest, hash => if k = hash then some v else cacheLookup rest hash

/-- `HashMap::insert`: the new entry replaces any entry with the same key. -/
def cacheUpdate (st : FMState) (hash : RStr) (file : StagedFile) : FMState :=
  { st with cache := (hash, file) :: st.cache.filter (fun e => !(decide (e.1 = hash))) }

/-- `Path::exists` on the modelled staging directory. -/
def diskHas (st : FMState) (p : RStr) : Bool :=
  st.disk.any (fun e => decide (e.1 = p))

/-- `fs::write`: creates or overwrites the file, refreshing its mtime. -/
def diskWrite (st : FMState) (p : RStr) (now : Nat) : FMState :=
  { st with disk := (p, now) :: st.disk.filter (fun e => !(decide (e.1 = p))) }

def clipTag : RStr := "clip-".toList

def txtExt : RStr := "txt".toList

def thumbPngExt : RStr := "thumb.png".toList

def supportedThumbFormats : List RStr :=
  ["png".toList, "jpg".toList, "jpeg".toList, "gif".toList, "webp".toList, "bmp".toList]

/-- Rust `Path::with_extension`: replace the extension after the last dot of
the final component (or append one if absent). -/
def withExtension (p : RStr) (ext : RStr) : RStr :=
  let rev := p.reverse
  let stemRev :=
    if (rev.takeWhile (fun c => decide (c ≠ '/'))).contains '.' then
      (rev.dropWhile (fun c => decide (c ≠ '.'))).drop 1
    else rev
  stemRev.reverse ++ '.' :: ext

/-- `FileManager::generate_thumbnail`: only supported raster formats get a
thumbnail; decoding/saving happens in the external `image` crate, so its
success is a parameter.  Failures degrade to `none`, never to an error. -/
def generate_thumbnail (file_path : RStr) (format : RStr) (thumbOk : Bool) :
    Option RStr :=
  if supportedThumbFormats.contains format && thumbOk then
    some (withExtension file_path thumbPngExt)
  else none

/-- The canonical artifact path `"<staging_dir>/clip-<hash8>.<ext>"`. -/
def stagePath (cfg : FMConfig) (hash : RStr) (extension : RStr) : RStr :=
  cfg.staging_dir ++ '/' :: (clipTag ++ hash.take 8 ++ '.' :: extension)

/-- `FileManager::stage_image`.  Returns the artifact, whether the payload
was written to disk, and the new state.  An index hit only short-circuits
when the backing file still exists. -/
def stage_image (cfg : FMConfig) (st : FMState) (data : List Nat) (format : RStr)
    (now : Nat) (thumbOk : Bool) : StagedFile × Bool × FMState :=
  let hash := sha256hex data
  let file_path := stagePath cfg hash format
  let hit := match cacheLookup st.cache hash with
    | some staged => if diskHas st file_path then some staged else none
    | none => none
  match hit with
  | some staged => (staged, false, st)
  | none =>
    let st1 := diskWrite st file_path now
    let thumb := generate_thumbnail file_path format thumbOk
    let st2 := match thumb with
      | some tp => diskWrite st1 tp now
      | none => st1
    let staged : StagedFile :=
      { path := file_path, size := data.length, format := format,
        created_at := now, thumbnail_path := thumb }
    (staged, true, cacheUpdate st2 hash staged)

/-- `FileManager::stage_text`: same dedup logic, fixed `txt` extension, no
thumbnail. -/
def stage_text (cfg : FMConfig) (st : FMState) (text : RStr) (now : Nat) :
    StagedFile × Bool × FMState :=
  let data := strBytes text
  let hash := sha256hex data
  let file_path := stagePath cfg hash txtExt
  let hit := match cacheLookup st.cache hash with
    | some staged => if diskHas st file_path then some staged else none
    | none => none
  match hit with
  | some staged => (staged, false, st)
  | none =>
    let st1 := diskWrite st file_path now
    let staged : StagedFile :=
      { path := file_path, size := data.length, format := txtExt,
        created_at := now, thumbnail_path := none }
    (staged, true, cacheUpdate st1 hash staged)

/-- `SystemTime::elapsed`: fails when the stored instant lies in the future. -/
def fileAge (now t : Nat) : Option Nat :=
  if t ≤ now then some (now - t) else none

/-- One iteration of the loop in `FileManager::start_cleanup_task`: disk
files are removed when strictly older than `max_age` (metadata errors skip
the file), index entries are retained only when provably younger
(`unwrap_or(false)`). -/
def cleanupCycle (maxAge now : Nat) (st : FMState) : FMState :=
  let disk := st.disk.filter (fun e =>
    match fileAge now e.2 with
    | some age => !(decide (age > maxAge))
    | none => true)
  let cache := st.cache.filter (fun e =>
    match fileAge now e.2.created_at with
    | some age => decide (age < maxAge)
    | none => false)
  { cache := cache, disk := disk }

/-! ### The processor (`ClipboardProcessor`, `src/clipboard/processor.rs`) -/

structure ProcessorConfig where
  symlink_dir : RStr
  symlinkPre : RStr
  keep_symlinks : Nat
  enable_dual_format : Bool
  enable_notifications : Bool
deriving DecidableEq

/-- One entry of the symlink directory; every modelled entry is a symlink
with a readable mtime, matching the happy path of the metadata calls. -/
structure SymEntry where
  name : RStr
  target : RStr
  mtime : Nat
deriving DecidableEq

structure ProcState where
  entries : List SymEntry
  fm : FMState
  clipboard : OsClipboard
deriving DecidableEq

/-- `ClipboardProcessor::create_symlink`: a timestamp-suffixed alias plus a
re-created fixed-name "latest" alias, both pointing at `target`.  A name
collision on the numbered alias surfaces as the `symlink` error does. -/
def create_symlink (cfg : ProcessorConfig) (st : ProcState) (target : RStr)
    (extension : RStr) (ts : RStr) (now : Nat) :
    Except ClaudeUtilsError (RStr × ProcState) :=
  let filename := cfg.symlinkPre ++ '-' :: ts ++ '.' :: extension
  let symlink_path := cfg.symlink_dir ++ '/' :: filename
  if st.entries.any (fun e => decide (e.name = filename)) then
    .error (.Clipboard ("File exists".toList))
  else
    let entries1 := (⟨filename, target, now⟩ : SymEntry) :: st.entries
    let latest_name := cfg.symlinkPre ++ '.' :: extension
    let entries2 := entries1.filter (fun e => !(decide (e.name = latest_name)))
    let entries3 := (⟨latest_name, target, now⟩ : SymEntry) :: entries2
    .ok (symlink_path, { st with entries := entries3 })

def mergeByMtimeDesc : Nat → List SymEntry → List SymEntry → List SymEntry
  | 0, l, r => l ++ r
  | _ + 1, [], r => r
  | _ + 1, a :: l, [] => a :: l
  | fuel + 1, a :: l, b :: r =>
    if b.mtime ≤ a.mtime then a :: mergeByMtimeDesc fuel l (b :: r)
    else b :: mergeByMtimeDesc fuel (a :: l) r

def sortGo : Nat → List SymEntry → List SymEntry
  | 0, l => l
  | fuel + 1, l =>
    match l with
    | [] => []
    | [a] => [a]
    | _ =>
      let n := l.length / 2
      mergeByMtimeDesc l.length (sortGo fuel (l.take n)) (sortGo fuel (l.drop n))

/-- `Vec::sort_by(|a, b| b.1.cmp(&a.1))`: newest first. -/
def sortByMtimeDesc (l : List SymEntry) : List SymEntry := sortGo l.length l

/-- The name filter of `ClipboardProcessor::cleanup_old_symlinks`, verbatim:
`name.starts_with(&format!("{}-*", prefix)) && name.contains('-')`.  The
`*` is a literal character to `starts_with`. -/
def symlinkNameMatches (cfg : ProcessorConfig) (name : RStr) : Bool :=
  (cfg.symlinkPre ++ ['-', '*']).isPrefixOf name && name.contains '-'

/-- `ClipboardProcessor::cleanup_old_symlinks`: select matching symlinks,
sort newest first, delete everything beyond `keep_symlinks`. -/
def cleanup_old_symlinks (cfg : ProcessorConfig) (st : ProcState) : ProcState :=
  let candidates := st.entries.filter (fun e => symlinkNameMatches cfg e.name)
  let toRemove := (sortByMtimeDesc candidates).drop cfg.keep_symlinks
  { st with entries := st.entries.filter (fun e => !(toRemove.contains e)) }

structure EventOut where
  staged_path : Option RStr
  symlink_path : Option RStr
deriving DecidableEq

def emptyEventOut : EventOut := { staged_path := none, symlink_path := none }

def pngFmt : RStr := "png".toList

def jpegFmt : RStr := "jpeg".toList

/-- `ClipboardProcessor::process_image_event`: read the raw image back from
the clipboard, stage it, alias it, optionally rewrite the clipboard with the
alias path (dual-format is text-only on every platform in this code), then
prune old symlinks.  Notifications touch no modelled state. -/
def process_image_event (fmCfg : FMConfig) (cfg : ProcessorConfig)
    (encode : ImageData → List Nat) (thumbOk : Bool) (st : ProcState)
    (c : ClipboardContent) (ts : RStr) (now : Nat) :
    Except ClaudeUtilsError (ProcState × EventOut) :=
  match get_raw_image st.clipboard encode with
  | .error e => .error e
  | .ok image_data =>
    let format := match c with
      | .ImagePng _ _ _ _ _ => pngFmt
      | _ => jpegFmt
    let sr := stage_image fmCfg st.fm image_data format now thumbOk
    let st1 := { st with fm := sr.2.2 }
    match create_symlink cfg st1 sr.1.path format ts now with
    | .error e => .error e
    | .ok (symlink_path, st2) =>
      let st3 :=
        if cfg.enable_dual_format then
          { st2 with clipboard := set_text_content st2.clipboard symlink_path }
        else st2
      let st4 := cleanup_old_symlinks cfg st3
      .ok (st4, { staged_path := some sr.1.path, symlink_path := some symlink_path })

/-- `ClipboardProcessor::process_large_text_event`. -/
def process_large_text_event (fmCfg : FMConfig) (cfg : ProcessorConfig)
    (st : ProcState) (data : RStr) (ts : RStr) (now : Nat) :
    Except ClaudeUtilsError (ProcState × EventOut) :=
  let sr := stage_text fmCfg st.fm data now
  let st1 := { st with fm := sr.2.2 }
  match create_symlink cfg st1 sr.1.path txtExt ts now with
  | .error e => .error e
  | .ok (symlink_path, st2) =>
    let st3 := { st2 with clipboard := set_text_content st2.clipboard symlink_path }
    let st4 := cleanup_old_symlinks cfg st3
    .ok (st4, { staged_path := some sr.1.path, symlink_path := some symlink_path })

/-- `ClipboardProcessor::process_event`: images always processed, text only
when its byte length exceeds `MAX_INLINE_SIZE`, small text passes through. -/
def process_event (fmCfg : FMConfig) (cfg : ProcessorConfig)
    (encode : ImageData → List Nat) (thumbOk : Bool) (st : ProcState)
    (c : ClipboardContent) (ts : RStr) (now : Nat) :
    Except ClaudeUtilsError (ProcState × EventOut) :=
  match c with
  | .ImagePng _ _ _ _ _ | .ImageJpeg _ _ _ _ _ =>
    process_image_event fmCfg cfg encode thumbOk st c ts now
  | .Text data _ =>
    if rustLen data > MAX_INLINE_SIZE then
      process_large_text_event fmCfg cfg st data ts now
    else
      .ok (st, emptyEventOut)

/-! ### Helper lemmas -/

lemma utf8Bytes_ascii_a : utf8Bytes 'a' = [97] := by decide

lemma strBytes_replicate_a (n : Nat) :
    strBytes (List.replicate n 'a') = List.replicate n 97 := by
  induction n with
  | zero => rfl
  | succ n ih =>
    rw [List.replicate_succ, strBytes, List.map_cons, List.flatten_cons,
      utf8Bytes_ascii_a]
    rw [strBytes] at ih
    rw [ih, List.replicate_succ]
    rfl

lemma rustLen_replicate_a (n : Nat) : rustLen (List.replicate n 'a') = n := by
  simp [rustLen, strBytes_replicate_a]

/-! ### Sample snapshots used in concrete scenarios -/

def sampleS1 : ClipboardContent := .Text ("hello".toList) none

def sampleS2 : ClipboardContent := .Text ("world".toList) none

/-! ### Claims -/

/-- Claim C8: a watcher poll whose clipboard read fails (no content or a
read error) completes without error, leaves the stored fingerprint
unchanged, and emits no event; the model's `none` input is exactly the
caught-and-logged `Err` branch of `check_clipboard`, which returns `Ok`. -/
theorem watcher_read_failure_noop :
    ∀ last : Option RStr, check_clipboard last none = (last, []) :=
  fun _ => rfl

/-- Claim C9: fingerprinting is deterministic — snapshots with the same
variant and identical field values (that is, equal `ClipboardContent`
values) get equal fingerprints from `calculate_content_hash`. -/
theorem fingerprint_deterministic :
    ∀ c₁ c₂ : ClipboardContent, c₁ = c₂ →
      calculate_content_hash c₁ = calculate_content_hash c₂ :=
  fun _ _ h => congrArg calculate_content_hash h

theorem fingerprint_deterministic_witness :
    calculate_content_hash sampleS1 = calculate_content_hash sampleS1 :=
  fingerprint_deterministic sampleS1 sampleS1 rfl

/-- Claim C10: `calculate_content_hash` shares one match arm between
`ImagePng` and `ImageJpeg` and never feeds the codec into the hasher, so an
`ImagePng` and an `ImageJpeg` snapshot with identical `data`, `file`,
`width`, `height` and `size` fingerprint identically — a codec-only change
is not detected as new clipboard content. -/
theorem png_jpeg_fingerprint_collision :
    ∀ (d f : Option RStr) (w h s : Nat),
      calculate_content_hash (.ImagePng d f w h s) =
        calculate_content_hash (.ImageJpeg d f w h s) :=
  fun _ _ _ _ _ => rfl

/-- Claim C5: on every successful poll the watcher emits an event exactly
when the snapshot's fingerprint differs from the recorded one (emitting and
recording it), with no event otherwise; and feeding the poll sequence
S1, S1, S2, S2, S1 emits exactly the three events S1, S2, S1 in order. -/
theorem watcher_emits_iff_fingerprint_changes :
    (∀ (last : Option RStr) (c : ClipboardContent),
      check_clipboard last (some c) =
        if last = some (calculate_content_hash c) then (last, [])
        else (some (calculate_content_hash c), [c])) ∧
    runWatcher none
        [some sampleS1, some sampleS1, some sampleS2, some sampleS2, some sampleS1] =
      [sampleS1, sampleS2, sampleS1] := by
  constructor
  · intro last c
    cases last with
    | none => simp [check_clipboard]
    | some prev =>
      by_cases h : prev = calculate_content_hash c <;>
        simp [check_clipboard, h]
  · decide

/-- Claim C2 counterexample: `get_content` does not return oversized text in
full — for a clipboard holding 65537 `'a'`s (one byte past the inline
threshold) the accessor returns only the first 65536 characters. -/
def returnedTextData : Except ClaudeUtilsError ClipboardData → Option RStr
  | .ok d => match d.content with
    | .Text data _ => some data
    | _ => none
  | .error _ => none

theorem get_content_truncates_oversized_text :
    returnedTextData
        (get_content { image := none, text := some (List.replicate 65537 'a') }
          (fun _ => []) 0) ≠
      some (List.replicate 65537 'a') := by
  have hlen : rustLen (List.replicate 65537 'a') = 65537 := rustLen_replicate_a 65537
  simp only [get_content, process_text, returnedTextData, hlen, MAX_INLINE_SIZE]
  norm_num

/-- Claim C2 amended: for a text payload, `get_content` returns the text in
full only when its byte length is at most `MAX_INLINE_SIZE`; longer text is
returned truncated to its first `MAX_INLINE_SIZE` characters and flagged
`truncated = some true`. -/
theorem get_content_text_truncation_spec :
    ∀ (t : RStr) (encode : ImageData → List Nat) (now : Nat),
      get_content { image := none, text := some t } encode now =
        .ok { content := .Text
                (if rustLen t > MAX_INLINE_SIZE then t.take MAX_INLINE_SIZE else t)
                (if rustLen t > MAX_INLINE_SIZE then some true else none),
              metadata := { timestamp := now, source := none } } :=
  fun _ _ _ => rfl

/-! ### Staging-store lemmas -/

lemma diskHas_diskWrite_self (st : FMState) (p : RStr) (n : Nat) :
    diskHas (diskWrite st p n) p = true := by
  simp [diskHas, diskWrite]

lemma diskHas_diskWrite_mono (st : FMState) (p q : RStr) (n : Nat)
    (h : diskHas st p = true) : diskHas (diskWrite st q n) p = true := by
  by_cases hpq : p = q
  · subst hpq
    exact diskHas_diskWrite_self st p n
  · simp only [diskHas, diskWrite, List.any_eq_true, decide_eq_true_eq] at h ⊢
    obtain ⟨e, he, hep⟩ := h
    refine ⟨e, List.mem_cons.mpr (Or.inr (List.mem_filter.mpr ⟨he, ?_⟩)), hep⟩
    simp [hep, hpq]

lemma diskHas_cacheUpdate (st : FMState) (hash : RStr) (f : StagedFile) (p : RStr) :
    diskHas (cacheUpdate st hash f) p = diskHas st p := rfl

lemma cacheLookup_cacheUpdate_self (st : FMState) (hash : RStr) (f : StagedFile) :
    cacheLookup (cacheUpdate st hash f).cache hash = some f := by
  simp [cacheUpdate, cacheLookup]

lemma stage_image_hit (cfg : FMConfig) (st : FMState) (data : List Nat)
    (format : RStr) (now : Nat) (tb : Bool) (staged : StagedFile)
    (h1 : cacheLookup st.cache (sha256hex data) = some staged)
    (h2 : diskHas st (stagePath cfg (sha256hex data) format) = true) :
    stage_image cfg st data format now tb = (staged, false, st) := by
  simp [stage_image, h1, h2]

lemma stage_image_cache_miss (cfg : FMConfig) (st : FMState) (data : List Nat)
    (format : RStr) (now : Nat) (tb : Bool)
    (h : cacheLookup st.cache (sha256hex data) = none) :
    stage_image cfg st data format now tb =
      (let p := stagePath cfg (sha256hex data) format
       let st1 := diskWrite st p now
       let thumb := generate_thumbnail p format tb
       let st2 := match thumb with
         | some tp => diskWrite st1 tp now
         | none => st1
       let staged : StagedFile := ⟨p, data.length, format, now, thumb⟩
       (staged, true, cacheUpdate st2 (sha256hex data) staged)) := by
  simp [stage_image, h]

lemma stage_image_stale_entry (cfg : FMConfig) (st : FMState) (data : List Nat)
    (format : RStr) (now : Nat) (tb : Bool) (stale : StagedFile)
    (h1 : cacheLookup st.cache (sha256hex data) = some stale)
    (h2 : diskHas st (stagePath cfg (sha256hex data) format) = false) :
    stage_image cfg st data format now tb =
      (let p := stagePath cfg (sha256hex data) format
       let st1 := diskWrite st p now
       let thumb := generate_thumbnail p format tb
       let st2 := match thumb with
         | some tp => diskWrite st1 tp now
         | none => st1
       let staged : StagedFile := ⟨p, data.length, format, now, thumb⟩
       (staged, true, cacheUpdate st2 (sha256hex data) staged)) := by
  simp [stage_image, h1, h2]

lemma stage_text_hit (cfg : FMConfig) (st : FMState) (text : RStr) (now : Nat)
    (staged : StagedFile)
    (h1 : cacheLookup st.cache (sha256hex (strBytes text)) = some staged)
    (h2 : diskHas st (stagePath cfg (sha256hex (strBytes text)) txtExt) = true) :
    stage_text cfg st text now = (staged, false, st) := by
  simp [stage_text, h1, h2]

lemma stage_text_cache_miss (cfg : FMConfig) (st : FMState) (text : RStr) (now : Nat)
    (h : cacheLookup st.cache (sha256hex (strBytes text)) = none) :
    stage_text cfg st text now =
      (let p := stagePath cfg (sha256hex (strBytes text)) txtExt
       let staged : StagedFile := ⟨p, (strBytes text).length, txtExt, now, none⟩
       (staged, true, cacheUpdate (diskWrite st p now) (sha256hex (strBytes text)) staged)) := by
  simp [stage_text, h]

lemma stage_text_stale_entry (cfg : FMConfig) (st : FMState) (text : RStr) (now : Nat)
    (stale : StagedFile)
    (h1 : cacheLookup st.cache (sha256hex (strBytes text)) = some stale)
    (h2 : diskHas st (stagePath cfg (sha256hex (strBytes text)) txtExt) = false) :
    stage_text cfg st text now =
      (let p := stagePath cfg (sha256hex (strBytes text)) txtExt
       let staged : StagedFile := ⟨p, (strBytes text).length, txtExt, now, none⟩
       (staged, true, cacheUpdate (diskWrite st p now) (sha256hex (strBytes text)) staged)) := by
  simp [stage_text, h1, h2]

/-- Claim C4: staging the identical payload with the same kind twice (from a
state whose index has no entry for its hash) yields the identical artifact
path both times, with a payload write on the first staging and none on the
second — exactly one disk write of the payload in total. -/
theorem stage_twice_same_path_single_write
    (cfg : FMConfig) (stI stT : FMState) (data : List Nat) (format text : RStr)
    (n1 n2 n3 n4 : Nat) (tb1 tb2 : Bool)
    (hI : cacheLookup stI.cache (sha256hex data) = none)
    (hT : cacheLookup stT.cache (sha256hex (strBytes text)) = none) :
    (let r1 := stage_image cfg stI data format n1 tb1
     let r2 := stage_image cfg r1.2.2 data format n2 tb2
     r1.1.path = r2.1.path ∧ r1.2.1 = true ∧ r2.2.1 = false) ∧
    (let q1 := stage_text cfg stT text n3
     let q2 := stage_text cfg q1.2.2 text n4
     q1.1.path = q2.1.path ∧ q1.2.1 = true ∧ q2.2.1 = false) := by
  constructor
  · rw [stage_image_cache_miss cfg stI data format n1 tb1 hI]
    simp only []
    set p := stagePath cfg (sha256hex data) format with hp
    set thumb := generate_thumbnail p format tb1 with hthumb
    set st2 := (match thumb with
      | some tp => diskWrite (diskWrite stI p n1) tp n1
      | none => diskWrite stI p n1) with hst2
    set staged : StagedFile := ⟨p, data.length, format, n1, thumb⟩ with hstaged
    have hdisk2 : diskHas st2 p = true := by
      rw [hst2]
      cases thumb with
      | none => exact diskHas_diskWrite_self stI p n1
      | some tp =>
        exact diskHas_diskWrite_mono _ p tp n1 (diskHas_diskWrite_self stI p n1)
    have h1 : cacheLookup (cacheUpdate st2 (sha256hex data) staged).cache
        (sha256hex data) = some staged :=
      cacheLookup_cacheUpdate_self st2 (sha256hex data) staged
    have h2 : diskHas (cacheUpdate st2 (sha256hex data) staged)
        (stagePath cfg (sha256hex data) format) = true := by
      rw [diskHas_cacheUpdate, ← hp]
      exact hdisk2
    rw [stage_image_hit cfg _ data format n2 tb2 staged h1 h2]
    refine ⟨?_, ?_, ?_⟩ <;> trivial
  · rw [stage_text_cache_miss cfg stT text n3 hT]
    simp only []
    set p := stagePath cfg (sha256hex (strBytes text)) txtExt with hp
    set staged : StagedFile := ⟨p, (strBytes text).length, txtExt, n3, none⟩ with hstaged
    have h1 : cacheLookup (cacheUpdate (diskWrite stT p n3) (sha256hex (strBytes text)) staged).cache
        (sha256hex (strBytes text)) = some staged :=
      cacheLookup_cacheUpdate_self _ _ _
    have h2 : diskHas (cacheUpdate (diskWrite stT p n3) (sha256hex (strBytes text)) staged)
        (stagePath cfg (sha256hex (strBytes text)) txtExt) = true := by
      rw [diskHas_cacheUpdate, ← hp]
      exact diskHas_diskWrite_self stT p n3
    rw [stage_text_hit cfg _ text n4 staged h1 h2]
    refine ⟨?_, ?_, ?_⟩ <;> trivial

def c4state : FMState := { cache := [], disk := [] }

def c4cfg : FMConfig :=
  { staging_dir := "/tmp/claude-utils".toList, cleanup_interval := 900, max_file_age := 900 }

theorem stage_twice_same_path_single_write_witness :
    (let r1 := stage_image c4cfg c4state [104, 105] pngFmt 10 true
     let r2 := stage_image c4cfg r1.2.2 [104, 105] pngFmt 20 true
     r1.1.path = r2.1.path ∧ r1.2.1 = true ∧ r2.2.1 = false) ∧
    (let q1 := stage_text c4cfg c4state ("hi".toList) 10
     let q2 := stage_text c4cfg q1.2.2 ("hi".toList) 20
     q1.1.path = q2.1.path ∧ q1.2.1 = true ∧ q2.2.1 = false) :=
  stage_twice_same_path_single_write c4cfg c4state c4state [104, 105] pngFmt
    ("hi".toList) 10 20 10 20 true true rfl rfl

/-- Claim C6: a staging request whose hash is in the index but whose backing
file is gone from disk is treated as a cache miss — the payload is written
to disk again and a fresh artifact (created now, at the canonical path) is
returned instead of the stale index entry. -/
theorem stale_index_entry_treated_as_miss
    (cfg : FMConfig) (stI stT : FMState) (data : List Nat) (format text : RStr)
    (n1 n2 : Nat) (tb : Bool) (staleI staleT : StagedFile)
    (hI1 : cacheLookup stI.cache (sha256hex data) = some staleI)
    (hI2 : diskHas stI (stagePath cfg (sha256hex data) format) = false)
    (hT1 : cacheLookup stT.cache (sha256hex (strBytes text)) = some staleT)
    (hT2 : diskHas stT (stagePath cfg (sha256hex (strBytes text)) txtExt) = false) :
    (let r := stage_image cfg stI data format n1 tb
     r.2.1 = true ∧
     r.1 = { path := stagePath cfg (sha256hex data) format, size := data.length,
             format := format, created_at := n1,
             thumbnail_path :=
               generate_thumbnail (stagePath cfg (sha256hex data) format) format tb } ∧
     diskHas r.2.2 (stagePath cfg (sha256hex data) format) = true) ∧
    (let q := stage_text cfg stT text n2
     q.2.1 = true ∧
     q.1 = { path := stagePath cfg (sha256hex (strBytes text)) txtExt,
             size := (strBytes text).length, format := txtExt, created_at := n2,
             thumbnail_path := none } ∧
     diskHas q.2.2 (stagePath cfg (sha256hex (strBytes text)) txtExt) = true) := by
  constructor
  · rw [stage_image_stale_entry cfg stI data format n1 tb staleI hI1 hI2]
    simp only []
    refine ⟨by trivial, by trivial, ?_⟩
    rw [diskHas_cacheUpdate]
    cases htm : generate_thumbnail (stagePath cfg (sha256hex data) format) format tb with
    | none =>
      simp only [htm]
      exact diskHas_diskWrite_self stI _ n1
    | some tp =>
      simp only [htm]
      exact diskHas_diskWrite_mono _ _ tp n1 (diskHas_diskWrite_self stI _ n1)
  · rw [stage_text_stale_entry cfg stT text n2 staleT hT1 hT2]
    simp only []
    refine ⟨by trivial, by trivial, ?_⟩
    rw [diskHas_cacheUpdate]
    exact diskHas_diskWrite_self stT _ n2

def c6stale : StagedFile :=
  { path := "/gone".toList, size := 0, format := txtExt, created_at := 0,
    thumbnail_path := none }

def c6stateI : FMState := { cache := [(sha256hex [104, 105], c6stale)], disk := [] }

def c6stateT : FMState := { cache := [(sha256hex (strBytes ("hi".toList)), c6stale)], disk := [] }

theorem stale_index_entry_treated_as_miss_witness :
    (let r := stage_image c4cfg c6stateI [104, 105] pngFmt 7 false
     r.2.1 = true ∧
     r.1 = { path := stagePath c4cfg (sha256hex [104, 105]) pngFmt, size := 2,
             format := pngFmt, created_at := 7,
             thumbnail_path :=
               generate_thumbnail (stagePath c4cfg (sha256hex [104, 105]) pngFmt) pngFmt false } ∧
     diskHas r.2.2 (stagePath c4cfg (sha256hex [104, 105]) pngFmt) = true) ∧
    (let q := stage_text c4cfg c6stateT ("hi".toList) 9
     q.2.1 = true ∧
     q.1 = { path := stagePath c4cfg (sha256hex (strBytes ("hi".toList))) txtExt,
             size := 2, format := txtExt, created_at := 9,
             thumbnail_path := none } ∧
     diskHas q.2.2 (stagePath c4cfg (sha256hex (strBytes ("hi".toList))) txtExt) = true) :=
  stale_index_entry_treated_as_miss c4cfg c6stateI c6stateT [104, 105] pngFmt
    ("hi".toList) 7 9 false c6stale c6stale
    (by simp [c6stateI, cacheLookup]) (by simp [c6stateI, diskHas])
    (by simp [c6stateT, cacheLookup]) (by simp [c6stateT, diskHas])

/-- Claim C7: one cleanup cycle removes an artifact from disk and from the
index when its age strictly exceeds the max-age threshold, and leaves it
present on disk and in the index when its age is strictly below it. -/
theorem cleanup_cycle_age_threshold
    (maxAge now t : Nat) (st : FMState) (p hash : RStr) (f : StagedFile)
    (hle : t ≤ now) (hca : f.created_at = t) :
    (now - t > maxAge →
      (p, t) ∉ (cleanupCycle maxAge now st).disk ∧
      (hash, f) ∉ (cleanupCycle maxAge now st).cache) ∧
    (now - t < maxAge →
      ((p, t) ∈ st.disk → (p, t) ∈ (cleanupCycle maxAge now st).disk) ∧
      ((hash, f) ∈ st.cache → (hash, f) ∈ (cleanupCycle maxAge now st).cache)) := by
  have hage : fileAge now t = some (now - t) := by simp [fileAge, hle]
  constructor
  · intro hold
    constructor
    · intro hmem
      have hf := (List.mem_filter.mp hmem).2
      simp only [hage] at hf
      simp [hold] at hf
    · intro hmem
      have hf := (List.mem_filter.mp hmem).2
      simp only [hca, hage] at hf
      have : ¬ (now - t < maxAge) := by omega
      simp [this] at hf
  · intro hyoung
    constructor
    · intro hmem
      refine List.mem_filter.mpr ⟨hmem, ?_⟩
      simp only [hage]
      have : ¬ (now - t > maxAge) := by omega
      simp [this]
    · intro hmem
      refine List.mem_filter.mpr ⟨hmem, ?_⟩
      simp only [hca, hage]
      simp [hyoung]

def c7file : StagedFile :=
  { path := "/old".toList, size := 1, format := txtExt, created_at := 5,
    thumbnail_path := none }

def c7hash : RStr := sha256hex [0]

def c7state : FMState :=
  { cache := [(c7hash, c7file)], disk := [("/old".toList, 5)] }

theorem cleanup_cycle_age_threshold_witness :
    (20 - 5 > 10 →
      ("/old".toList, 5) ∉ (cleanupCycle 10 20 c7state).disk ∧
      (c7hash, c7file) ∉ (cleanupCycle 10 20 c7state).cache) ∧
    (20 - 5 < 10 →
      (("/old".toList, 5) ∈ c7state.disk →
        ("/old".toList, 5) ∈ (cleanupCycle 10 20 c7state).disk) ∧
      ((c7hash, c7file) ∈ c7state.cache →
        (c7hash, c7file) ∈ (cleanupCycle 10 20 c7state).cache)) :=
  cleanup_cycle_age_threshold 10 20 5 c7state ("/old".toList) c7hash c7file
    (by decide) rfl

/-! ### Processor claims -/

/-- Claim C1: a text clipboard event is staged, aliased, and the clipboard
rewritten to the alias path exactly when the event text's byte length
exceeds `MAX_INLINE_SIZE` (65536); at the threshold nothing is staged, one
byte above it the full stage-alias-rewrite pipeline runs.  The freshness
hypothesis says the timestamped alias name is not already taken, matching a
successful `symlink` call. -/
theorem process_event_text_staged_iff_over_threshold
    (fmCfg : FMConfig) (cfg : ProcessorConfig) (encode : ImageData → List Nat)
    (tb : Bool) (st : ProcState) (data : RStr) (tr : Option Bool) (ts : RStr)
    (now : Nat)
    (hfresh : (st.entries.any fun e =>
      decide (e.name = cfg.symlinkPre ++ '-' :: ts ++ '.' :: txtExt)) = false) :
    (∃ st' ev p,
      process_event fmCfg cfg encode tb st (.Text data tr) ts now = .ok (st', ev) ∧
      ev.staged_path.isSome = true ∧ ev.symlink_path = some p ∧
      st'.clipboard.text = some p) ↔
    rustLen data > MAX_INLINE_SIZE := by
  by_cases hlen : rustLen data > MAX_INLINE_SIZE
  · simp only [process_event, if_pos hlen]
    constructor
    · intro _
      exact hlen
    · intro _
      simp only [process_large_text_event, create_symlink]
      rw [show ({ st with fm := (stage_text fmCfg st.fm data now).2.2 } :
            ProcState).entries = st.entries from rfl]
      rw [hfresh]
      simp only [Bool.false_eq_true, if_false]
      exact ⟨_, _, _, rfl, rfl, rfl, rfl⟩
  · simp only [process_event, if_neg hlen]
    constructor
    · rintro ⟨st', ev, pth, heq, hstaged, _, _⟩
      rw [Except.ok.injEq, Prod.mk.injEq] at heq
      obtain ⟨_, hev⟩ := heq
      rw [← hev] at hstaged
      simp [emptyEventOut] at hstaged
    · intro h
      exact absurd h hlen

def procCfg0 : ProcessorConfig :=
  { symlink_dir := "/links".toList, symlinkPre := "claude-paste".toList,
    keep_symlinks := 5, enable_dual_format := true, enable_notifications := true }

def emptyProcState : ProcState :=
  { entries := [], fm := { cache := [], disk := [] },
    clipboard := { image := none, text := none } }

theorem process_event_text_staged_iff_over_threshold_witness :
    (∃ st' ev p,
      process_event c4cfg procCfg0 (fun _ => []) false emptyProcState
        (.Text ("hi".toList) none) ("20260101-000001".toList) 0 = .ok (st', ev) ∧
      ev.staged_path.isSome = true ∧ ev.symlink_path = some p ∧
      st'.clipboard.text = some p) ↔
    rustLen ("hi".toList) > MAX_INLINE_SIZE :=
  process_event_text_staged_iff_over_threshold c4cfg procCfg0 (fun _ => []) false
    emptyProcState ("hi".toList) none ("20260101-000001".toList) 0 rfl

/-! ### Claim C3: alias rotation never deletes anything.

`cleanup_old_symlinks` filters directory entries with
`name.starts_with("<prefix>-*")`, where the `*` is a literal character, so
no timestamp-numbered alias ever matches and none is ever removed.  Running
N = 6 successful stage+alias cycles with K = `keep_symlinks` = 5 leaves all
6 numbered aliases in place, contradicting the claimed bound; the "latest"
alias half of the invariant does hold. -/

/-- One stage+alias processing cycle over the cited alias code: create the
numbered and "latest" aliases for a freshly staged artifact path, then run
the rotation cleanup. -/
def stageAliasCycle (cfg : ProcessorConfig) (st : ProcState) (target ts : RStr)
    (now : Nat) : Except ClaudeUtilsError ProcState :=
  match create_symlink cfg st target txtExt ts now with
  | .error e => .error e
  | .ok (_, st1) => .ok (cleanup_old_symlinks cfg st1)

def runCycles (cfg : ProcessorConfig) :
    ProcState → List (RStr × RStr × Nat) → Except ClaudeUtilsError ProcState
  | st, [] => .ok st
  | st, (target, ts, now) :: rest =>
    match stageAliasCycle cfg st target ts now with
    | .error e => .error e
    | .ok st1 => runCycles cfg st1 rest

def c3inputs : List (RStr × RStr × Nat) :=
  [("/s/t1.txt".toList, "20260101-000001".toList, 1),
   ("/s/t2.txt".toList, "20260101-000002".toList, 2),
   ("/s/t3.txt".toList, "20260101-000003".toList, 3),
   ("/s/t4.txt".toList, "20260101-000004".toList, 4),
   ("/s/t5.txt".toList, "20260101-000005".toList, 5),
   ("/s/t6.txt".toList, "20260101-000006".toList, 6)]

/-- The number of timestamp-numbered aliases (names extending
`"<prefix>-"`) left in the alias directory. -/
def numberedCount (cfg : ProcessorConfig) (r : Except ClaudeUtilsError ProcState) :
    Nat :=
  match r with
  | .ok st =>
    (st.entries.filter fun e => (cfg.symlinkPre ++ ['-']).isPrefixOf e.name).length
  | .error _ => 0

/-- The target of the fixed-name "latest" alias. -/
def latestTargetOf (cfg : ProcessorConfig) (extension : RStr)
    (r : Except ClaudeUtilsError ProcState) : Option RStr :=
  match r with
  | .ok st =>
    match st.entries.find? (fun e => decide (e.name = cfg.symlinkPre ++ '.' :: extension)) with
    | some e => some e.target
    | none => none
  | .error _ => none

theorem cleanup_keeps_all_numbered_symlinks :
    numberedCount procCfg0 (runCycles procCfg0 emptyProcState c3inputs) = 6 ∧
    procCfg0.keep_symlinks = 5 ∧
    latestTargetOf procCfg0 txtExt (runCycles procCfg0 emptyProcState c3inputs) =
      some ("/s/t6.txt".toList) := by
  refine ⟨by decide, by decide, by decide⟩

